import Mathlib

/-!
Verification development for the bun-sfe-autoupdater repository.

The development shallowly embeds the two components of the updater:

* the release Resolver (`BunUpdater` in the library entry file): the
  eligibility check `hasUpdates` and the spawn sequence `checkForUpdates`;
* the update Executor (`src/updater.ts`): argument parsing and validation,
  the two bounded polling loops, download, checksum verification and the
  backup/replace rename swap, modelled as a trace of filesystem events.

External collaborators (the `semver` npm package, Node's `path` module,
Node's `util.parseArgs`, the `zod` URL validator and the WebCrypto SHA-256
primitive) are modelled by explicit Lean functions; each such definition
carries a doc comment saying what it models.  Network and process
behaviour is supplied by explicit environment records of oracles, so every
definition is executable on concrete inputs.
-/

/-! ## Semantic versions

Models the `semver` npm package's version ordering (`semver.gt`), used by
`BunUpdater.hasUpdates`.  Versions are represented already parsed
(`BunUpdater`'s constructor rejects strings that are not valid semver), as
a major/minor/patch triple plus the dot-separated pre-release identifier
list.  Build metadata does not participate in precedence and is omitted.
-/

/-- A single pre-release identifier: numeric identifiers compare
numerically and are smaller than alphanumeric ones; alphanumeric
identifiers compare lexicographically (ASCII). -/
inductive PreId where
  | num (n : Nat)
  | str (s : List Char)
deriving DecidableEq, Repr

/-- A parsed semantic version. -/
structure SemVer where
  major : Nat
  minor : Nat
  patch : Nat
  prerelease : List PreId
deriving DecidableEq, Repr

/-- Three-way comparison on naturals (models JS numeric comparison inside
the `semver` package). -/
def cmpNat (a b : Nat) : Ordering :=
  if a < b then .lt else if b < a then .gt else .eq

/-- Lexicographic comparison of character lists (models JS string
comparison of alphanumeric pre-release identifiers). -/
def cmpChars : List Char → List Char → Ordering
  | [], [] => .eq
  | [], _ :: _ => .lt
  | _ :: _, [] => .gt
  | a :: as, b :: bs =>
    match cmpNat a.toNat b.toNat with
    | .eq => cmpChars as bs
    | o => o

/-- Comparison of single pre-release identifiers
(`semver`'s `compareIdentifiers`). -/
def cmpPreId : PreId → PreId → Ordering
  | .num a, .num b => cmpNat a b
  | .num _, .str _ => .lt
  | .str _, .num _ => .gt
  | .str a, .str b => cmpChars a b

/-- Pairwise comparison of two non-empty pre-release identifier lists; a
version with fewer identifiers (all shared identifiers equal) is smaller. -/
def cmpPreList : List PreId → List PreId → Ordering
  | [], [] => .eq
  | [], _ :: _ => .lt
  | _ :: _, [] => .gt
  | a :: as, b :: bs =>
    match cmpPreId a b with
    | .eq => cmpPreList as bs
    | o => o

/-- `semver`'s pre-release comparison: a version without a pre-release
list is greater than any version with one. -/
def comparePre : List PreId → List PreId → Ordering
  | [], [] => .eq
  | [], _ :: _ => .gt
  | a :: as, [] =>
    match a, as with
    | _, _ => .lt
  | a :: as, b :: bs => cmpPreList (a :: as) (b :: bs)

/-- `semver`'s full precedence comparison (`semver.compare`). -/
def semverCompare (a b : SemVer) : Ordering :=
  ((cmpNat a.major b.major).then
    ((cmpNat a.minor b.minor).then
      ((cmpNat a.patch b.patch).then
        (comparePre a.prerelease b.prerelease))))

/-- `semver.gt a b`: `a` is strictly newer than `b`. -/
def semverGt (a b : SemVer) : Bool :=
  match semverCompare a b with
  | .gt => true
  | _ => false

theorem cmpNat_swap (a b : Nat) : (cmpNat a b).swap = cmpNat b a := by
  unfold cmpNat
  rcases Nat.lt_trichotomy a b with h | h | h
  · simp [h, Nat.lt_asymm h, Ordering.swap]
  · simp [h, Nat.lt_irrefl, Ordering.swap]
  · simp [h, Nat.lt_asymm h, Nat.not_lt.mpr (Nat.le_of_lt h), Ordering.swap]

theorem Ordering.then_swap (a b : Ordering) :
    (a.then b).swap = a.swap.then b.swap := by
  cases a <;> cases b <;> rfl

theorem cmpChars_swap (a b : List Char) : (cmpChars a b).swap = cmpChars b a := by
  induction a generalizing b with
  | nil => cases b <;> rfl
  | cons x xs ih =>
    cases b with
    | nil => rfl
    | cons y ys =>
      simp only [cmpChars]
      rw [← cmpNat_swap x.toNat y.toNat]
      cases cmpNat x.toNat y.toNat with
      | eq => simpa using ih ys
      | lt => rfl
      | gt => rfl

theorem cmpPreId_swap (a b : PreId) : (cmpPreId a b).swap = cmpPreId b a := by
  cases a <;> cases b <;> simp only [cmpPreId] <;>
    first
      | rfl
      | exact cmpNat_swap _ _
      | exact cmpChars_swap _ _

theorem cmpPreList_swap (a b : List PreId) :
    (cmpPreList a b).swap = cmpPreList b a := by
  induction a generalizing b with
  | nil => cases b <;> rfl
  | cons x xs ih =>
    cases b with
    | nil => rfl
    | cons y ys =>
      simp only [cmpPreList]
      rw [← cmpPreId_swap x y]
      cases cmpPreId x y with
      | eq => simpa using ih ys
      | lt => rfl
      | gt => rfl

theorem comparePre_swap (a b : List PreId) :
    (comparePre a b).swap = comparePre b a := by
  cases a with
  | nil => cases b <;> rfl
  | cons x xs =>
    cases b with
    | nil => rfl
    | cons y ys => simpa only [comparePre] using cmpPreList_swap (x :: xs) (y :: ys)

theorem semverCompare_swap (a b : SemVer) :
    (semverCompare a b).swap = semverCompare b a := by
  unfold semverCompare
  rw [Ordering.then_swap, Ordering.then_swap, Ordering.then_swap,
    cmpNat_swap, cmpNat_swap, cmpNat_swap, comparePre_swap]

/-! ## Release data model

Mirrors `src/types.ts`: the `ETarget` enumeration, release-metadata
artifacts (`zArtifact` / `zRelease`) and the GitHub release / asset shapes
(`TAsset` / `TRelease`).  The `version` field is carried parsed (see the
note on `SemVer` above). -/

/-- `ETarget`: the closed platform+architecture enumeration. -/
inductive Target where
  | linux_x64
  | linux_arm64
  | windows_x64
  | darwin_arm64
  | darwin_x64
deriving DecidableEq, Repr

/-- `TArtifact`: one entry of `release.json`'s artifact list. -/
structure Artifact where
  name : String
  target : Target
  size : Nat
  checksum : String
deriving DecidableEq, Repr

/-- `TReleaseMetadata`: the parsed `release.json` document. -/
structure ReleaseMetadata where
  version : SemVer
  releaseDate : String
  artifacts : List Artifact
deriving DecidableEq, Repr

/-- `TAsset`: one downloadable file of a GitHub release. -/
structure Asset where
  name : String
  browser_download_url : String
  url : String
  size : Nat
deriving DecidableEq, Repr

/-- `TRelease`: the GitHub release object. -/
structure HostedRelease where
  tag_name : String
  published_at : String
  assets : List Asset
deriving DecidableEq, Repr

/-- `BunUpdater.hasUpdates`: finds the first artifact whose target equals
the host architecture, checks a release asset with the same name exists,
and requires `semver.gt` of the metadata version over the configured
current version. -/
def hasUpdates (release : HostedRelease) (meta : ReleaseMetadata)
    (currentArch : Target) (currentVersion : SemVer) : Bool :=
  let artifact := meta.artifacts.find? (fun a => a.target == currentArch)
  let hasCorrectArch := release.assets.any (fun asset =>
    match artifact with
    | some a => asset.name == a.name
    | none => false)
  let hasNewerVersion := semverGt meta.version currentVersion
  hasCorrectArch && hasNewerVersion

/-! ## Release Resolver (`BunUpdater.checkForUpdates`)

Models the `checkForUpdates` method of the `BunUpdater` class.  The
method's interactions with the outside world (the GitHub fetch in
`getLatestRelease`, `getCurrentArchitecture`, `downloadUpdater`, the
process environment, the spawn of the updater binary) are supplied by a
`ResolverEnv` record of outcomes, so the embedding is an executable
function from the reentrancy-guard state and the environment to the new
guard state, the call outcome and the ordered list of performed effects. -/

/-- An observable effect performed by `checkForUpdates`, in program order. -/
inductive REvent where
  | fetchRelease
  | downloadUpdaterBinary
  | spawnUpdater (updaterPath : String) (args : List String) (detached : Bool)
  | unrefUpdater
  | awaitExited
deriving DecidableEq, Repr

/-- Construction-time options of `BunUpdater` that `checkForUpdates`
reads (`currentVersion`, `autoStart`, `ignoreChecksum`). -/
structure ResolverConfig where
  currentVersion : SemVer
  autoStart : Bool
  ignoreChecksum : Bool
deriving Repr

/-- Outcomes of the resolver's external calls: the release fetch
(`getLatestRelease`), host-architecture detection
(`getCurrentArchitecture`, which throws on unsupported hosts), the
updater-binary staging (`downloadUpdater`), and ambient process state. -/
structure ResolverEnv where
  fetchOutcome : Except String (HostedRelease × ReleaseMetadata)
  archOutcome : Except String Target
  downloadUpdaterOutcome : Except String String
  execPath : String
  pid : Nat
  envGithubToken : Option String
deriving Repr

/-- Result of one `checkForUpdates` call: the final `isUpdating` guard
value, the returned/thrown outcome, and the effects performed. -/
structure ResolverResult where
  isUpdating : Bool
  outcome : Except String Unit
  events : List REvent
deriving Repr

/-- `BunUpdater.checkForUpdates` (the resolver entry file, lines 122-216).
`st` is the instance's `isUpdating` field on entry; `overrideAutoStart`
is `options?.autoStart`.  The `try` block sets the guard, runs the
eligibility check, and on the eligible path spawns the updater; the
`catch` block clears the guard and rethrows.  Normal returns leave the
guard set, exactly as in the source. -/
def checkForUpdates (st : Bool) (cfg : ResolverConfig) (env : ResolverEnv)
    (overrideAutoStart : Option Bool) : ResolverResult :=
  if st then
    { isUpdating := st, outcome := .ok (), events := [] }
  else
    match env.fetchOutcome with
    | .error e => { isUpdating := false, outcome := .error e, events := [.fetchRelease] }
    | .ok (release, updaterMetadata) =>
      match env.archOutcome with
      | .error e => { isUpdating := false, outcome := .error e, events := [.fetchRelease] }
      | .ok currentArch =>
        let artifact := updaterMetadata.artifacts.find?
          (fun a => a.target == currentArch)
        let hasCorrectArch := release.assets.any (fun asset =>
          match artifact with
          | some a => asset.name == a.name
          | none => false)
        let hasNewerVersion := semverGt updaterMetadata.version cfg.currentVersion
        if !(hasCorrectArch && hasNewerVersion) then
          { isUpdating := true, outcome := .ok (), events := [.fetchRelease] }
        else
          match updaterMetadata.artifacts.find? (fun a => a.target == currentArch) with
          | none =>
            { isUpdating := false,
              outcome := .error "No suitable artifact found for the current architecture in release.json",
              events := [.fetchRelease] }
          | some targetArtifact =>
            match release.assets.find? (fun asset => asset.name == targetArtifact.name) with
            | none =>
              { isUpdating := false,
                outcome := .error "No asset found in the release matching the target artifact.",
                events := [.fetchRelease] }
            | some targetAsset =>
              match env.downloadUpdaterOutcome with
              | .error e =>
                { isUpdating := false, outcome := .error e,
                  events := [.fetchRelease, .downloadUpdaterBinary] }
              | .ok updaterPath =>
                let autoStartValue :=
                  match overrideAutoStart with
                  | none => cfg.autoStart
                  | some v => v
                let args :=
                  ["--CURRENT_BINARY_PATH=" ++ env.execPath,
                   "--PUBLIC_URL=" ++ targetAsset.browser_download_url,
                   "--PRIVATE_URL=" ++ targetAsset.url,
                   "--GITHUB_TOKEN=" ++ (match env.envGithubToken with
                     | some t => t
                     | none => ""),
                   "--CURRENT_PID=" ++ toString env.pid,
                   "--SHA256_CHECKSUM=" ++ targetArtifact.checksum]
                  ++ (if cfg.ignoreChecksum then ["--IGNORE_CHECKSUM"] else [])
                  ++ (if autoStartValue then ["--AUTO_START"] else [])
                { isUpdating := true, outcome := .ok (),
                  events := [.fetchRelease, .downloadUpdaterBinary,
                    .spawnUpdater updaterPath args true, .unrefUpdater, .awaitExited] }

/-! ## Hex encoding of digests (`calculateSHA256`)

`src/updater.ts` lines 96-106 (and `src/sha256.ts`): the downloaded file
is digested with WebCrypto SHA-256 and the 32 digest bytes are rendered
as zero-padded two-digit lowercase hex.  The WebCrypto digest primitive
is external; it is modelled as an explicit function parameter producing
the digest byte list. -/

/-- One lowercase hex digit (`'0'`..`'9'`, `'a'`..`'f'`) for `n < 16`. -/
def hexDigitChar (n : Nat) : Char :=
  if n < 10 then Char.ofNat (48 + n) else Char.ofNat (87 + n)

/-- Fuel-bounded digit recursion for `toHexChars` (the fuel only needs
to exceed the number of hex digits; it is set to `n + 1` below, which
always suffices because the value shrinks by a factor of 16 each step). -/
def toHexCharsGo (fuel n : Nat) : List Char :=
  match fuel with
  | 0 => []
  | f + 1 =>
    if n < 16 then [hexDigitChar n]
    else toHexCharsGo f (n / 16) ++ [hexDigitChar (n % 16)]

/-- Models JS `b.toString(16)` for a natural number: most-significant
digit first, lowercase, no leading zeros (and `"0"` for zero). -/
def toHexChars (n : Nat) : List Char :=
  toHexCharsGo (n + 1) n

/-- Models JS `.padStart(2, '0')`. -/
def padTwo (l : List Char) : List Char :=
  if l.length < 2 then List.replicate (2 - l.length) '0' ++ l else l

/-- `b.toString(16).padStart(2, '0')` from `calculateSHA256`. -/
def byteToHex (b : Nat) : String :=
  String.mk (padTwo (toHexChars b))

/-- The `.map(...).join('')` hex rendering of a digest byte list. -/
def hexEncode (bytes : List Nat) : String :=
  String.join (bytes.map byteToHex)

/-- `calculateSHA256`: digest the file bytes (the WebCrypto SHA-256
primitive is the `sha` parameter, producing the digest bytes of its
input) and hex-encode the digest. -/
def calculateSHA256 (sha : List Nat → List Nat) (fileBytes : List Nat) : String :=
  hexEncode (sha fileBytes)

/-! ## Paths and strings -/

/-- Models `path.basename` (POSIX): the part of the path after the last
separator. -/
def posixBasename (p : String) : String :=
  String.mk ((p.data.reverse.takeWhile (fun c => c != '/')).reverse)

/-- Models `path.dirname` (POSIX): the part before the last separator,
`"."` when there is none, `"/"` for a root-level entry. -/
def posixDirname (p : String) : String :=
  match p.data.reverse.dropWhile (fun c => c != '/') with
  | [] => "."
  | _ :: tail =>
    match tail with
    | [] => "/"
    | _ :: _ => String.mk tail.reverse

/-- Models `path.join` of a directory and a file name. -/
def posixJoin (a b : String) : String :=
  if a = "" then b
  else if a = "." then b
  else if a.data.getLast? = some '/' then a ++ b
  else a ++ "/" ++ b

/-- `src/updater.ts` lines 137-142: the sibling download path
`path.join(path.dirname(p), path.basename(p) + '.new')`. -/
def newBinaryPath (p : String) : String :=
  posixJoin (posixDirname p) (posixBasename p ++ ".new")

/-- `charsHavePre pat l`: `l` starts with `pat`. -/
def charsHavePre : List Char → List Char → Bool
  | [], _ => true
  | _ :: _, [] => false
  | a :: s, b :: l => a == b && charsHavePre s l

/-- `charsHaveSub pat l`: `pat` occurs contiguously in `l`. -/
def charsHaveSub (pat : List Char) : List Char → Bool
  | [] => pat.isEmpty
  | c :: l => charsHavePre pat (c :: l) || charsHaveSub pat l

/-- Models JS `String.prototype.includes`. -/
def strHasSub (s pat : String) : Bool :=
  charsHaveSub pat.data s.data

/-! ## Executor argument parsing

`src/updater.ts` lines 7-44: `util.parseArgs` over `Bun.argv` with a
strict option table of six string options and one boolean flag, followed
by a `zod` object parse.  `parseLoop` models Node's `parseArgs` for
long-form options (the only form the resolver emits): `--name=value`,
`--name value`, boolean `--name`, `--` terminator, positionals allowed,
unknown options rejected. -/

/-- The raw option values accumulated by `parseArgs`. -/
structure RawValues where
  PUBLIC_URL : Option String := none
  PRIVATE_URL : Option String := none
  SHA256_CHECKSUM : Option String := none
  GITHUB_TOKEN : Option String := none
  CURRENT_BINARY_PATH : Option String := none
  CURRENT_PID : Option String := none
  IGNORE_CHECKSUM : Option Bool := none
deriving DecidableEq, Repr

/-- Kind of a declared option: string-valued or boolean flag. -/
inductive OptKind where
  | strVal
  | flagVal
deriving DecidableEq, Repr

/-- The executor's `parseArgs` option table (`src/updater.ts` lines 9-17).
`AUTO_START` is deliberately absent: the source does not declare it. -/
def updaterOptKind (name : String) : Option OptKind :=
  if name = "PUBLIC_URL" then some .strVal
  else if name = "PRIVATE_URL" then some .strVal
  else if name = "SHA256_CHECKSUM" then some .strVal
  else if name = "GITHUB_TOKEN" then some .strVal
  else if name = "CURRENT_BINARY_PATH" then some .strVal
  else if name = "CURRENT_PID" then some .strVal
  else if name = "IGNORE_CHECKSUM" then some .flagVal
  else none

/-- Record a string option value (last occurrence wins). -/
def setStrVal (v : RawValues) (name value : String) : RawValues :=
  if name = "PUBLIC_URL" then { v with PUBLIC_URL := some value }
  else if name = "PRIVATE_URL" then { v with PRIVATE_URL := some value }
  else if name = "SHA256_CHECKSUM" then { v with SHA256_CHECKSUM := some value }
  else if name = "GITHUB_TOKEN" then { v with GITHUB_TOKEN := some value }
  else if name = "CURRENT_BINARY_PATH" then { v with CURRENT_BINARY_PATH := some value }
  else if name = "CURRENT_PID" then { v with CURRENT_PID := some value }
  else v

/-- Record a boolean flag. -/
def setFlagTrue (v : RawValues) (name : String) : RawValues :=
  if name = "IGNORE_CHECKSUM" then { v with IGNORE_CHECKSUM := some true }
  else v

/-- Models JS `String.prototype.startsWith`. -/
def strStartsWith (s pat : String) : Bool :=
  charsHavePre pat.data s.data

/-- Models Node's strict `util.parseArgs` token loop for the executor's
option table.  Token splitting is done on the underlying character
lists (`--name=value`), matching Node's behaviour for long options. -/
def parseLoop (v : RawValues) (args : List String) : Except String RawValues :=
  match args with
  | [] => .ok v
  | t :: rest =>
    if t = "--" then .ok v
    else if strStartsWith t "--" then
      let bodyChars := t.data.drop 2
      let nameChars := bodyChars.takeWhile (fun c => c != '=')
      let name := String.mk nameChars
      match updaterOptKind name with
      | none => .error ("Unknown option " ++ name)
      | some .strVal =>
        if nameChars.length < bodyChars.length then
          parseLoop (setStrVal v name
            (String.mk (bodyChars.drop (nameChars.length + 1)))) rest
        else
          match rest with
          | [] => .error ("Option " ++ name ++ " argument missing")
          | val :: rest2 =>
            if strStartsWith val "-" then
              .error ("Option " ++ name ++ " argument missing")
            else parseLoop (setStrVal v name val) rest2
      | some .flagVal =>
        if nameChars.length < bodyChars.length then
          .error ("Option " ++ name ++ " does not take an argument")
        else parseLoop (setFlagTrue v name) rest
    else if strStartsWith t "-" && t != "-" then .error ("Unknown option " ++ t)
    else parseLoop v rest

/-- `parseArgs` over the executor's invocation argument list. -/
def parseUpdaterArgs (argv : List String) : Except String RawValues :=
  parseLoop {} argv

/-- Split a character list at the first occurrence of `pat`, returning
the parts before and after it, or `none` when `pat` does not occur. -/
def splitFirstSub (pat : List Char) : List Char → Option (List Char × List Char)
  | [] => if pat.isEmpty then some ([], []) else none
  | c :: rest =>
    if charsHavePre pat (c :: rest) then some ([], (c :: rest).drop pat.length)
    else
      match splitFirstSub pat rest with
      | none => none
      | some (front, back) => some (c :: front, back)

/-- Models `z.url()` of the zod library (an external collaborator):
requires an alphabetic scheme, a single `://` separator and a non-empty
remainder.  The theorems below do not depend on its exact boundary,
only on concrete accepted URLs and on failures being fatal. -/
def isValidUrl (s : String) : Bool :=
  match splitFirstSub "://".data s.data with
  | none => false
  | some (scheme, rest) =>
    (!scheme.isEmpty) && scheme.all Char.isAlpha &&
      (!rest.isEmpty) && !(charsHaveSub "://".data rest)

/-- The validated handoff parameters (the zod object of
`src/updater.ts` lines 30-40). -/
structure UpdaterArgs where
  PUBLIC_URL : Option String
  PRIVATE_URL : Option String
  GITHUB_TOKEN : Option String
  CURRENT_BINARY_PATH : String
  CURRENT_PID : String
  SHA256_CHECKSUM : String
  IGNORE_CHECKSUM : Bool
deriving DecidableEq, Repr

/-- The zod schema parse: URLs optional but must be valid when present;
`CURRENT_BINARY_PATH`, `CURRENT_PID` and `SHA256_CHECKSUM` required;
`IGNORE_CHECKSUM` defaults to `false`. -/
def zodParse (v : RawValues) : Except String UpdaterArgs :=
  if v.PUBLIC_URL.any (fun u => !isValidUrl u) then
    .error "Invalid url: PUBLIC_URL"
  else if v.PRIVATE_URL.any (fun u => !isValidUrl u) then
    .error "Invalid url: PRIVATE_URL"
  else
    match v.CURRENT_BINARY_PATH with
    | none => .error "Required: CURRENT_BINARY_PATH"
    | some binPath =>
      match v.CURRENT_PID with
      | none => .error "Required: CURRENT_PID"
      | some pid =>
        match v.SHA256_CHECKSUM with
        | none => .error "Required: SHA256_CHECKSUM"
        | some ck =>
          .ok { PUBLIC_URL := v.PUBLIC_URL, PRIVATE_URL := v.PRIVATE_URL,
                GITHUB_TOKEN := v.GITHUB_TOKEN, CURRENT_BINARY_PATH := binPath,
                CURRENT_PID := pid, SHA256_CHECKSUM := ck,
                IGNORE_CHECKSUM := v.IGNORE_CHECKSUM.getD false }

/-! ## Executor state machine (`src/updater.ts` lines 62-213)

The executor's run is modelled as a pure function from the validated
arguments and an environment of oracles to an outcome and the ordered
trace of performed effects.  The oracles answer, per attempt index,
whether `process.kill` throws (the process is gone) and whether opening
the binary read-write succeeds, plus the download response status, the
downloaded payload and the SHA-256 primitive. -/

/-- One observable executor effect, in program order. -/
inductive UEvent where
  | killAttempt (i : Nat)
  | sleepMs (ms : Nat)
  | openAttempt (file : String) (i : Nat)
  | fetchUrl (url : String)
  | writeFile (file : String) (bytes : List Nat)
  | chmodFile (file : String) (mode : Nat)
  | renameFile (src : String) (dst : String)
  | spawnNew (file : String) (detached : Bool)
  | unrefNew
deriving DecidableEq, Repr

/-- Fatal executor errors (each aborts the process with a non-zero
status in the source). -/
inductive UpdaterError where
  | parseArgsError (msg : String)
  | schemaError (msg : String)
  | missingUrl
  | bunScriptPath
  | pidTimeout
  | lockTimeout
  | downloadError
  | checksumMismatch (expected got : String)
deriving DecidableEq, Repr

/-- Oracles for the executor's external interactions. -/
structure ExecEnv where
  /-- Whether the `process.kill(pid, 'SIGTERM')` call at attempt `i`
  throws because the process no longer exists. -/
  killThrows : Nat → Bool
  /-- Whether `fs.open(file, 'r+')` at attempt `i` succeeds. -/
  openOk : Nat → Bool
  /-- `response.ok` of the binary download. -/
  httpOk : Bool
  /-- The downloaded payload bytes. -/
  body : List Nat
  /-- The WebCrypto SHA-256 primitive (digest bytes of an input). -/
  sha256 : List Nat → List Nat

/-- `waitForTargetPidToExit` (lines 62-76): up to `fuel` attempts,
starting at attempt index `i`; each attempt signals the process and, if
the signal does not throw, sleeps 250ms and retries; a throwing signal
is the success condition.  Exhausting the budget is a fatal timeout. -/
def waitForTargetPidToExit (fuel i : Nat) (killThrows : Nat → Bool) :
    Except UpdaterError Unit × List UEvent :=
  match fuel with
  | 0 => (.error .pidTimeout, [])
  | f + 1 =>
    if killThrows i then (.ok (), [.killAttempt i])
    else
      let r := waitForTargetPidToExit f (i + 1) killThrows
      (r.1, .killAttempt i :: .sleepMs 250 :: r.2)

/-- `waitForUnlock` (lines 78-94): up to `fuel` attempts to open the
file read-write; a failed open sleeps 250ms and retries; exhausting the
budget is a fatal timeout. -/
def waitForUnlock (fuel i : Nat) (openOk : Nat → Bool) (file : String) :
    Except UpdaterError Unit × List UEvent :=
  match fuel with
  | 0 => (.error .lockTimeout, [])
  | f + 1 =>
    if openOk i then (.ok (), [.openAttempt file i])
    else
      let r := waitForUnlock f (i + 1) openOk file
      (r.1, .openAttempt file i :: .sleepMs 250 :: r.2)

/-- The executor's post-validation sequence (lines 144-213): await parent
exit, await file unlock, download to the `.new` sibling path, verify the
checksum when one was supplied and `IGNORE_CHECKSUM` is not set, chmod,
backup-rename, replace-rename, spawn the new binary detached and unref
it. -/
def executorMain (a : UpdaterArgs) (env : ExecEnv) :
    Except UpdaterError Unit × List UEvent :=
  let p := a.CURRENT_BINARY_PATH
  let newPath := newBinaryPath p
  match waitForTargetPidToExit 40 0 env.killThrows with
  | (.error e, evs) => (.error e, evs)
  | (.ok _, evs1) =>
    match waitForUnlock 40 0 env.openOk p with
    | (.error e, evs) => (.error e, evs1 ++ evs)
    | (.ok _, evs2) =>
      let url := match a.PRIVATE_URL with
        | some u => u
        | none => a.PUBLIC_URL.getD ""
      if !env.httpOk then
        (.error .downloadError, evs1 ++ evs2 ++ [.fetchUrl url])
      else
        let evs3 := evs1 ++ evs2 ++ [.fetchUrl url, .writeFile newPath env.body]
        let swapEvents := [UEvent.chmodFile newPath 0o755,
          UEvent.renameFile p (p ++ ".old"),
          UEvent.renameFile newPath p,
          UEvent.spawnNew p true, UEvent.unrefNew]
        if (a.SHA256_CHECKSUM != "") && !a.IGNORE_CHECKSUM then
          let downloadedChecksum := calculateSHA256 env.sha256 env.body
          if downloadedChecksum != a.SHA256_CHECKSUM then
            (.error (.checksumMismatch a.SHA256_CHECKSUM downloadedChecksum), evs3)
          else
            (.ok (), evs3 ++ swapEvents)
        else
          (.ok (), evs3 ++ swapEvents)

/-- The whole executor process: argument parsing, schema validation, the
two input-validation rejections (lines 42-50), then the state machine.
Validation failures abort before any effect. -/
def executorRun (argv : List String) (env : ExecEnv) :
    Except UpdaterError Unit × List UEvent :=
  match parseUpdaterArgs argv with
  | .error msg => (.error (.parseArgsError msg), [])
  | .ok raw =>
    match zodParse raw with
    | .error msg => (.error (.schemaError msg), [])
    | .ok a =>
      if a.PUBLIC_URL.isNone && a.PRIVATE_URL.isNone then
        (.error .missingUrl, [])
      else if strHasSub a.CURRENT_BINARY_PATH ".bun/bin/" then
        (.error .bunScriptPath, [])
      else executorMain a env


/-- The sixteen lowercase hex digits. -/
def hexDigitsLower : List Char := "0123456789abcdef".data

/-- ASCII lowercasing of one character (models JS `toLowerCase` on the
hex alphabet, used only to state case-insensitivity facts). -/
def asciiLowerChar (c : Char) : Char :=
  if 65 ≤ c.toNat ∧ c.toNat ≤ 90 then Char.ofNat (c.toNat + 32) else c

/-- Recognizer for kill-signal attempts. -/
def isKillAttempt : UEvent → Bool
  | .killAttempt _ => true
  | _ => false

/-- Recognizer for file-open attempts. -/
def isOpenAttempt : UEvent → Bool
  | .openAttempt _ _ => true
  | _ => false

/-- Recognizer for mutating filesystem events (write, chmod, rename). -/
def isMutEvent : UEvent → Bool
  | .writeFile _ _ => true
  | .chmodFile _ _ => true
  | .renameFile _ _ => true
  | _ => false

/-! ## Theorems -/

theorem toHexCharsGo_of_lt (f b : Nat) (h : b < 16) :
    toHexCharsGo (f + 1) b = [hexDigitChar b] := by
  unfold toHexCharsGo
  simp [h]

theorem toHexChars_of_lt (b : Nat) (h : b < 16) :
    toHexChars b = [hexDigitChar b] :=
  toHexCharsGo_of_lt b b h

theorem toHexChars_of_byte (b : Nat) (h1 : 16 ≤ b) (h2 : b < 256) :
    toHexChars b = [hexDigitChar (b / 16), hexDigitChar (b % 16)] := by
  obtain ⟨f, rfl⟩ : ∃ f, b = f + 1 := ⟨b - 1, by omega⟩
  unfold toHexChars
  rw [toHexCharsGo]
  rw [if_neg (by omega)]
  rw [toHexCharsGo_of_lt f ((f + 1) / 16) (by omega)]
  rfl

theorem byteToHex_of_byte (b : Nat) (h : b < 256) :
    byteToHex b = String.mk [hexDigitChar (b / 16), hexDigitChar (b % 16)] := by
  by_cases h16 : b < 16
  · unfold byteToHex
    rw [toHexChars_of_lt b h16]
    unfold padTwo
    rw [Nat.div_eq_of_lt h16, Nat.mod_eq_of_lt h16]
    have h0 : hexDigitChar 0 = '0' := by decide
    simp [h0]
  · unfold byteToHex
    rw [toHexChars_of_byte b (by omega) h]
    unfold padTwo
    simp

theorem hexDigitChar_mem_lower : ∀ n < 16, hexDigitChar n ∈ hexDigitsLower := by
  decide

theorem data_of_string_join (l : List String) :
    (String.join l).data = (l.map String.data).flatten := by
  have aux : ∀ (l : List String) (acc : String),
      (l.foldl (· ++ ·) acc).data = acc.data ++ (l.map String.data).flatten := by
    intro l
    induction l with
    | nil => intro acc; simp
    | cons s rest ih =>
      intro acc
      simp only [List.foldl_cons, List.map_cons, List.flatten_cons]
      rw [ih (acc ++ s), String.data_append]
      simp
  have h := aux l ""
  simpa [String.join] using h

theorem hexEncode_data (bytes : List Nat) (h : ∀ b ∈ bytes, b < 256) :
    (hexEncode bytes).data =
      (bytes.map (fun b => [hexDigitChar (b / 16), hexDigitChar (b % 16)])).flatten := by
  unfold hexEncode
  rw [data_of_string_join, List.map_map]
  congr 1
  apply List.map_congr_left
  intro b hb
  have := byteToHex_of_byte b (h b hb)
  simp only [Function.comp_apply, this]

theorem sum_map_two {α : Type} (l : List α) :
    (l.map (fun _ => (2 : Nat))).sum = 2 * l.length := by
  induction l with
  | nil => simp
  | cons a rest ih => simp [ih]; omega

/-- C10: for every digest the WebCrypto primitive can produce (32 bytes,
each below 256), `calculateSHA256` renders a 64-character string of
lowercase hex digits, each digest byte contributing exactly two
zero-padded hex digits in order. -/
theorem C10_sha256_hex_format (sha : List Nat → List Nat) (fileBytes : List Nat)
    (hlen : (sha fileBytes).length = 32) (hbyte : ∀ b ∈ sha fileBytes, b < 256) :
    (calculateSHA256 sha fileBytes).length = 64 ∧
    (∀ c ∈ (calculateSHA256 sha fileBytes).data, c ∈ hexDigitsLower) ∧
    (calculateSHA256 sha fileBytes).data =
      ((sha fileBytes).map (fun b => [hexDigitChar (b / 16), hexDigitChar (b % 16)])).flatten := by
  have hdata : (calculateSHA256 sha fileBytes).data =
      ((sha fileBytes).map (fun b => [hexDigitChar (b / 16), hexDigitChar (b % 16)])).flatten :=
    hexEncode_data (sha fileBytes) hbyte
  refine ⟨?_, ?_, hdata⟩
  · have hl : (calculateSHA256 sha fileBytes).length =
        (calculateSHA256 sha fileBytes).data.length := rfl
    rw [hl, hdata, List.length_flatten, List.map_map]
    have hc : ∀ b ∈ sha fileBytes,
        (List.length ∘ fun b => [hexDigitChar (b / 16), hexDigitChar (b % 16)]) b
          = (fun _ => (2 : Nat)) b := fun _ _ => rfl
    rw [List.map_congr_left hc, sum_map_two, hlen]
  · intro c hc
    rw [hdata, List.mem_flatten] at hc
    obtain ⟨l, hl, hcl⟩ := hc
    rw [List.mem_map] at hl
    obtain ⟨b, hb, rfl⟩ := hl
    have hdiv : b / 16 < 16 := (Nat.div_lt_iff_lt_mul (by omega)).mpr (hbyte b hb)
    have hmod : b % 16 < 16 := Nat.mod_lt _ (by omega)
    simp only [List.mem_cons, List.not_mem_nil, or_false] at hcl
    rcases hcl with rfl | rfl
    · exact hexDigitChar_mem_lower _ hdiv
    · exact hexDigitChar_mem_lower _ hmod

/-- Witness for C10 at a concrete 32-byte digest. -/
theorem C10_sha256_hex_format_witness :
    (calculateSHA256 (fun _ => List.range 32) []).length = 64 :=
  (C10_sha256_hex_format (fun _ => List.range 32) [] (by decide) (by decide)).1

theorem waitPid_events_shape (fuel i : Nat) (k : Nat → Bool) :
    ∀ e ∈ (waitForTargetPidToExit fuel i k).2,
      (∃ j, e = .killAttempt j) ∨ e = .sleepMs 250 := by
  induction fuel generalizing i with
  | zero => intro e he; simp [waitForTargetPidToExit] at he
  | succ f ih =>
    intro e he
    simp only [waitForTargetPidToExit] at he
    by_cases hk : k i
    · simp [hk] at he
      exact Or.inl ⟨i, he⟩
    · simp [hk, List.mem_cons] at he
      rcases he with rfl | rfl | hrest
      · exact Or.inl ⟨i, rfl⟩
      · exact Or.inr rfl
      · exact ih (i + 1) e hrest

theorem waitUnlock_events_shape (fuel i : Nat) (o : Nat → Bool) (file : String) :
    ∀ e ∈ (waitForUnlock fuel i o file).2,
      (∃ j, e = .openAttempt file j) ∨ e = .sleepMs 250 := by
  induction fuel generalizing i with
  | zero => intro e he; simp [waitForUnlock] at he
  | succ f ih =>
    intro e he
    simp only [waitForUnlock] at he
    by_cases ho : o i
    · simp [ho] at he
      exact Or.inl ⟨i, he⟩
    · simp [ho, List.mem_cons] at he
      rcases he with rfl | rfl | hrest
      · exact Or.inl ⟨i, rfl⟩
      · exact Or.inr rfl
      · exact ih (i + 1) e hrest

theorem waitPid_count (fuel i : Nat) (k : Nat → Bool) :
    (waitForTargetPidToExit fuel i k).2.countP isKillAttempt ≤ fuel := by
  induction fuel generalizing i with
  | zero => simp [waitForTargetPidToExit]
  | succ f ih =>
    simp only [waitForTargetPidToExit]
    by_cases hk : k i
    · simp [hk, List.countP_cons, isKillAttempt]
    · simp only [hk, if_false, Bool.false_eq_true]
      have hih := ih (i + 1)
      simp [List.countP_cons, isKillAttempt]
      omega

theorem waitUnlock_count (fuel i : Nat) (o : Nat → Bool) (file : String) :
    (waitForUnlock fuel i o file).2.countP isOpenAttempt ≤ fuel := by
  induction fuel generalizing i with
  | zero => simp [waitForUnlock]
  | succ f ih =>
    simp only [waitForUnlock]
    by_cases ho : o i
    · simp [ho, List.countP_cons, isOpenAttempt]
    · simp only [ho, if_false, Bool.false_eq_true]
      have hih := ih (i + 1)
      simp [List.countP_cons, isOpenAttempt]
      omega

theorem waitPid_error_iff (fuel i : Nat) (k : Nat → Bool) :
    (waitForTargetPidToExit fuel i k).1 = .error .pidTimeout ↔
      ∀ j < fuel, k (i + j) = false := by
  induction fuel generalizing i with
  | zero => simp [waitForTargetPidToExit]
  | succ f ih =>
    simp only [waitForTargetPidToExit]
    by_cases hk : k i
    · refine iff_of_false (by simp [hk]) ?_
      intro hall
      have h0 := hall 0 (by omega)
      simp [hk] at h0
    · simp only [hk, if_false, Bool.false_eq_true]
      rw [ih (i + 1)]
      have hki : k i = false := by
        simpa using hk
      constructor
      · intro h j hj
        cases j with
        | zero => simpa using hki
        | succ j' =>
          have hh := h j' (by omega)
          rw [show i + 1 + j' = i + (j' + 1) from by omega] at hh
          exact hh
      · intro h j hj
        have hh := h (j + 1) (by omega)
        rw [show i + (j + 1) = i + 1 + j from by omega] at hh
        exact hh

theorem waitUnlock_error_iff (fuel i : Nat) (o : Nat → Bool) (file : String) :
    (waitForUnlock fuel i o file).1 = .error .lockTimeout ↔
      ∀ j < fuel, o (i + j) = false := by
  induction fuel generalizing i with
  | zero => simp [waitForUnlock]
  | succ f ih =>
    simp only [waitForUnlock]
    by_cases ho : o i
    · refine iff_of_false (by simp [ho]) ?_
      intro hall
      have h0 := hall 0 (by omega)
      simp [ho] at h0
    · simp only [ho, if_false, Bool.false_eq_true]
      rw [ih (i + 1)]
      have hoi : o i = false := by
        simpa using ho
      constructor
      · intro h j hj
        cases j with
        | zero => simpa using hoi
        | succ j' =>
          have hh := h j' (by omega)
          rw [show i + 1 + j' = i + (j' + 1) from by omega] at hh
          exact hh
      · intro h j hj
        have hh := h (j + 1) (by omega)
        rw [show i + (j + 1) = i + 1 + j from by omega] at hh
        exact hh

theorem waitPid_result (fuel i : Nat) (k : Nat → Bool) :
    (waitForTargetPidToExit fuel i k).1 = .ok () ∨
      (waitForTargetPidToExit fuel i k).1 = .error .pidTimeout := by
  induction fuel generalizing i with
  | zero => exact Or.inr rfl
  | succ f ih =>
    simp only [waitForTargetPidToExit]
    by_cases hk : k i
    · simp [hk]
    · simp only [hk, if_false, Bool.false_eq_true]
      exact ih (i + 1)

theorem waitUnlock_result (fuel i : Nat) (o : Nat → Bool) (file : String) :
    (waitForUnlock fuel i o file).1 = .ok () ∨
      (waitForUnlock fuel i o file).1 = .error .lockTimeout := by
  induction fuel generalizing i with
  | zero => exact Or.inr rfl
  | succ f ih =>
    simp only [waitForUnlock]
    by_cases ho : o i
    · simp [ho]
    · simp only [ho, if_false, Bool.false_eq_true]
      exact ih (i + 1)

/-- C6: each polling loop performs at most 40 attempts, every pause
between attempts is 250ms, exhausting the budget yields the fatal
timeout error (and only then), and in the parent-exit loop a throwing
kill signal (the process no longer exists) makes the loop return
success. -/
theorem C6_polling_loops_bounded (k o : Nat → Bool) (file : String) :
    ((waitForTargetPidToExit 40 0 k).2.countP isKillAttempt ≤ 40) ∧
    ((waitForUnlock 40 0 o file).2.countP isOpenAttempt ≤ 40) ∧
    (∀ ms, UEvent.sleepMs ms ∈ (waitForTargetPidToExit 40 0 k).2 → ms = 250) ∧
    (∀ ms, UEvent.sleepMs ms ∈ (waitForUnlock 40 0 o file).2 → ms = 250) ∧
    ((waitForTargetPidToExit 40 0 k).1 = .error .pidTimeout ↔ ∀ j < 40, k j = false) ∧
    ((∃ j, j < 40 ∧ k j = true) → (waitForTargetPidToExit 40 0 k).1 = .ok ()) ∧
    ((waitForUnlock 40 0 o file).1 = .error .lockTimeout ↔ ∀ j < 40, o j = false) ∧
    ((∃ j, j < 40 ∧ o j = true) → (waitForUnlock 40 0 o file).1 = .ok ()) := by
  refine ⟨waitPid_count 40 0 k, waitUnlock_count 40 0 o file, ?_, ?_, ?_, ?_, ?_, ?_⟩
  · intro ms hms
    rcases waitPid_events_shape 40 0 k _ hms with ⟨j, hj⟩ | hj
    · cases hj
    · cases hj
      rfl
  · intro ms hms
    rcases waitUnlock_events_shape 40 0 o file _ hms with ⟨j, hj⟩ | hj
    · cases hj
    · cases hj
      rfl
  · simpa using waitPid_error_iff 40 0 k
  · intro ⟨j, hj, hkj⟩
    rcases waitPid_result 40 0 k with h | h
    · exact h
    · have := (waitPid_error_iff 40 0 k).mp h j hj
      simp at this
      rw [hkj] at this
      cases this
  · simpa using waitUnlock_error_iff 40 0 o file
  · intro ⟨j, hj, hoj⟩
    rcases waitUnlock_result 40 0 o file with h | h
    · exact h
    · have := (waitUnlock_error_iff 40 0 o file).mp h j hj
      simp at this
      rw [hoj] at this
      cases this

/-- Witness for C6: a never-exiting process times out; an immediately
unlocked file succeeds. -/
theorem C6_polling_loops_bounded_witness :
    (waitForTargetPidToExit 40 0 (fun _ => false)).1 = .error .pidTimeout ∧
    (waitForUnlock 40 0 (fun _ => true) "/opt/app").1 = .ok () :=
  ⟨((C6_polling_loops_bounded (fun _ => false) (fun _ => true) "/opt/app").2.2.2.2.1).mpr
      (by decide),
   (C6_polling_loops_bounded (fun _ => false) (fun _ => true) "/opt/app").2.2.2.2.2.2.2
      ⟨0, by decide, rfl⟩⟩

theorem posixJoin_eq_of_dot (b : String) : posixJoin "." b = b := by
  unfold posixJoin
  rw [if_neg (by decide), if_pos rfl]

theorem posixJoin_len_of_ne (a b : String) (h0 : a ≠ "") (h1 : a ≠ ".") :
    a.length + b.length ≤ (posixJoin a b).length := by
  unfold posixJoin
  rw [if_neg h0, if_neg h1]
  split
  · rw [String.length_append]
  · rw [String.length_append, String.length_append]
    have h1 : ("/" : String).length = 1 := rfl
    omega

theorem posixDirname_mk_dot (l : List Char)
    (hd : l.reverse.dropWhile (fun c => c != '/') = []) :
    posixDirname (String.mk l) = "." := by
  unfold posixDirname
  have hdata : (String.mk l).data = l := rfl
  rw [hdata, hd]

theorem posixDirname_mk_root (l : List Char) (c : Char)
    (hd : l.reverse.dropWhile (fun c => c != '/') = [c]) :
    posixDirname (String.mk l) = "/" := by
  unfold posixDirname
  have hdata : (String.mk l).data = l := rfl
  rw [hdata, hd]

theorem posixDirname_mk_deep (l : List Char) (c x : Char) (xs : List Char)
    (hd : l.reverse.dropWhile (fun c => c != '/') = c :: x :: xs) :
    posixDirname (String.mk l) = String.mk ((x :: xs).reverse) := by
  unfold posixDirname
  have hdata : (String.mk l).data = l := rfl
  rw [hdata, hd]

theorem posixBasename_mk (l : List Char) :
    posixBasename (String.mk l) =
      String.mk ((l.reverse.takeWhile (fun c => c != '/')).reverse) := rfl

theorem newBinaryPath_length (p : String) : p.length < (newBinaryPath p).length := by
  obtain ⟨l⟩ := p
  have hmk : ∀ (xs : List Char), (String.mk xs).length = xs.length := fun _ => rfl
  have hlen4 : (".new" : String).length = 4 := rfl
  have hsum : (l.reverse.takeWhile (fun c => c != '/')).length +
      (l.reverse.dropWhile (fun c => c != '/')).length = l.length := by
    rw [← List.length_append,
      List.takeWhile_append_dropWhile (fun c => c != '/') l.reverse,
      List.length_reverse]
  have hbase : (String.mk ((l.reverse.takeWhile (fun c => c != '/')).reverse) ++ ".new").length
      = (l.reverse.takeWhile (fun c => c != '/')).length + 4 := by
    rw [String.length_append, hmk, List.length_reverse, hlen4]
  unfold newBinaryPath
  rw [posixBasename_mk]
  cases hd : l.reverse.dropWhile (fun c => c != '/') with
  | nil =>
    rw [hd, List.length_nil, Nat.add_zero] at hsum
    rw [posixDirname_mk_dot l hd, posixJoin_eq_of_dot, hbase, hmk]
    omega
  | cons c tail =>
    rw [hd] at hsum
    cases tail with
    | nil =>
      rw [posixDirname_mk_root l c hd]
      have hne0 : ("/" : String) ≠ "" := by decide
      have hne1 : ("/" : String) ≠ "." := by decide
      have hj := posixJoin_len_of_ne "/"
        (String.mk ((l.reverse.takeWhile (fun c => c != '/')).reverse) ++ ".new") hne0 hne1
      rw [hbase] at hj
      have h1 : ("/" : String).length = 1 := rfl
      simp only [List.length_cons, List.length_nil] at hsum
      rw [hmk]
      omega
    | cons x xs =>
      rw [posixDirname_mk_deep l c x xs hd]
      by_cases hdot : String.mk ((x :: xs).reverse) = "."
      · rw [hdot, posixJoin_eq_of_dot, hbase, hmk]
        have hxl : (x :: xs).reverse = ['.'] := congrArg String.data hdot
        have hxlen := congrArg List.length hxl
        simp only [List.length_reverse, List.length_cons, List.length_nil] at hxlen
        simp only [List.length_cons] at hsum
        omega
      · have hne0 : String.mk ((x :: xs).reverse) ≠ "" := by
          intro h
          have hxl : (x :: xs).reverse = ([] : List Char) := congrArg String.data h
          simp at hxl
        have hj := posixJoin_len_of_ne (String.mk ((x :: xs).reverse))
          (String.mk ((l.reverse.takeWhile (fun c => c != '/')).reverse) ++ ".new") hne0 hdot
        rw [hbase, hmk, List.length_reverse] at hj
        simp only [List.length_cons] at hsum hj
        rw [hmk]
        omega

theorem newBinaryPath_ne (p : String) : newBinaryPath p ≠ p := by
  intro h
  have := newBinaryPath_length p
  rw [h] at this
  omega

theorem executorMain_shape (a : UpdaterArgs) (env : ExecEnv) :
    ∃ pre : List UEvent,
      (∀ e ∈ pre, isMutEvent e = false) ∧
      ((executorMain a env = (.error .pidTimeout, pre) ∧
          (waitForTargetPidToExit 40 0 env.killThrows).1 = .error .pidTimeout) ∨
       (executorMain a env = (.error .lockTimeout, pre) ∧
          (waitForUnlock 40 0 env.openOk a.CURRENT_BINARY_PATH).1 = .error .lockTimeout) ∨
       (executorMain a env = (.error .downloadError, pre) ∧ env.httpOk = false) ∨
       (((a.SHA256_CHECKSUM != "") && !a.IGNORE_CHECKSUM) = true ∧
          calculateSHA256 env.sha256 env.body ≠ a.SHA256_CHECKSUM ∧
          executorMain a env =
            (.error (.checksumMismatch a.SHA256_CHECKSUM (calculateSHA256 env.sha256 env.body)),
             pre ++ [UEvent.writeFile (newBinaryPath a.CURRENT_BINARY_PATH) env.body])) ∨
       ((((a.SHA256_CHECKSUM != "") && !a.IGNORE_CHECKSUM) = false ∨
           calculateSHA256 env.sha256 env.body = a.SHA256_CHECKSUM) ∧
          executorMain a env =
            (.ok (), pre ++ [UEvent.writeFile (newBinaryPath a.CURRENT_BINARY_PATH) env.body,
              UEvent.chmodFile (newBinaryPath a.CURRENT_BINARY_PATH) 0o755,
              UEvent.renameFile a.CURRENT_BINARY_PATH (a.CURRENT_BINARY_PATH ++ ".old"),
              UEvent.renameFile (newBinaryPath a.CURRENT_BINARY_PATH) a.CURRENT_BINARY_PATH,
              UEvent.spawnNew a.CURRENT_BINARY_PATH true, UEvent.unrefNew]))) := by
  rcases hw1 : waitForTargetPidToExit 40 0 env.killThrows with ⟨r1, evs1⟩
  have hsh1 := waitPid_events_shape 40 0 env.killThrows
  rw [hw1] at hsh1
  have hpre1 : ∀ e ∈ evs1, isMutEvent e = false := by
    intro e he
    rcases hsh1 e he with ⟨j, rfl⟩ | rfl <;> rfl
  cases r1 with
  | error err1 =>
    have hres := waitPid_result 40 0 env.killThrows
    rw [hw1] at hres
    simp only [Except.error.injEq, reduceCtorEq, false_or] at hres
    obtain rfl := hres
    have hEM : executorMain a env = (.error .pidTimeout, evs1) := by
      unfold executorMain
      rw [hw1]
    exact ⟨evs1, hpre1, Or.inl ⟨hEM, rfl⟩⟩
  | ok u1 =>
    cases u1
    rcases hw2 : waitForUnlock 40 0 env.openOk a.CURRENT_BINARY_PATH with ⟨r2, evs2⟩
    have hsh2 := waitUnlock_events_shape 40 0 env.openOk a.CURRENT_BINARY_PATH
    rw [hw2] at hsh2
    cases r2 with
    | error err2 =>
      have hres := waitUnlock_result 40 0 env.openOk a.CURRENT_BINARY_PATH
      rw [hw2] at hres
      simp only [Except.error.injEq, reduceCtorEq, false_or] at hres
      obtain rfl := hres
      have hpre2 : ∀ e ∈ evs1 ++ evs2, isMutEvent e = false := by
        intro e he
        rcases List.mem_append.mp he with h | h
        · exact hpre1 e h
        · rcases hsh2 e h with ⟨j, rfl⟩ | rfl <;> rfl
      have hEM : executorMain a env = (.error .lockTimeout, evs1 ++ evs2) := by
        unfold executorMain
        rw [hw1]
        dsimp only
        rw [hw2]
      exact ⟨evs1 ++ evs2, hpre2, Or.inr (Or.inl ⟨hEM, rfl⟩)⟩
    | ok u2 =>
      cases u2
      have hpre3 : ∀ e ∈ evs1 ++ evs2 ++
          [UEvent.fetchUrl (match a.PRIVATE_URL with
            | some u => u
            | none => a.PUBLIC_URL.getD "")], isMutEvent e = false := by
        intro e he
        rcases List.mem_append.mp he with h | h
        · rcases List.mem_append.mp h with h2 | h2
          · exact hpre1 e h2
          · rcases hsh2 e h2 with ⟨j, rfl⟩ | rfl <;> rfl
        · simp only [List.mem_singleton] at h
          subst h
          rfl
      by_cases hh : env.httpOk = true
      · by_cases hck : ((a.SHA256_CHECKSUM != "") && !a.IGNORE_CHECKSUM) = true
        · by_cases hmatch : calculateSHA256 env.sha256 env.body = a.SHA256_CHECKSUM
          · refine ⟨evs1 ++ evs2 ++ [UEvent.fetchUrl _], hpre3,
              Or.inr (Or.inr (Or.inr (Or.inr ⟨Or.inr hmatch, ?_⟩)))⟩
            unfold executorMain
            rw [hw1]
            dsimp only
            rw [hw2]
            dsimp only
            rw [hh]
            rw [if_neg (by decide)]
            rw [if_pos hck]
            rw [if_neg (by simp [hmatch])]
            simp
          · refine ⟨evs1 ++ evs2 ++ [UEvent.fetchUrl _], hpre3,
              Or.inr (Or.inr (Or.inr (Or.inl ⟨hck, hmatch, ?_⟩)))⟩
            unfold executorMain
            rw [hw1]
            dsimp only
            rw [hw2]
            dsimp only
            rw [hh]
            rw [if_neg (by decide)]
            rw [if_pos hck]
            rw [if_pos (by simp [bne_iff_ne, hmatch])]
            simp
        · refine ⟨evs1 ++ evs2 ++ [UEvent.fetchUrl _], hpre3,
            Or.inr (Or.inr (Or.inr (Or.inr ⟨Or.inl (by simpa using hck), ?_⟩)))⟩
          unfold executorMain
          rw [hw1]
          dsimp only
          rw [hw2]
          dsimp only
          rw [hh]
          rw [if_neg (by decide)]
          rw [if_neg hck]
          simp
      · have hhf : env.httpOk = false := by simpa using hh
        refine ⟨evs1 ++ evs2 ++ [UEvent.fetchUrl _], hpre3,
          Or.inr (Or.inr (Or.inl ⟨?_, hhf⟩))⟩
        unfold executorMain
        rw [hw1]
        dsimp only
        rw [hw2]
        dsimp only
        rw [hhf]
        rw [if_pos (by decide)]

/-- C2: in every executor run whose trace contains the replace rename
(`.new` file to the original path), the backup rename (original path to
`.old`) occurs strictly before it, so the original path is never
overwritten before the backup exists. -/
theorem C2_backup_rename_precedes_replace (a : UpdaterArgs) (env : ExecEnv)
    (hmem : UEvent.renameFile (newBinaryPath a.CURRENT_BINARY_PATH) a.CURRENT_BINARY_PATH
      ∈ (executorMain a env).2) :
    List.Sublist
      [UEvent.renameFile a.CURRENT_BINARY_PATH (a.CURRENT_BINARY_PATH ++ ".old"),
       UEvent.renameFile (newBinaryPath a.CURRENT_BINARY_PATH) a.CURRENT_BINARY_PATH]
      (executorMain a env).2 := by
  obtain ⟨pre, hpre, hcases⟩ := executorMain_shape a env
  rcases hcases with ⟨hEM, _⟩ | ⟨hEM, _⟩ | ⟨hEM, _⟩ | ⟨_, _, hEM⟩ | ⟨_, hEM⟩
  · rw [hEM] at hmem
    have hfalse := hpre _ hmem
    simp [isMutEvent] at hfalse
  · rw [hEM] at hmem
    have hfalse := hpre _ hmem
    simp [isMutEvent] at hfalse
  · rw [hEM] at hmem
    have hfalse := hpre _ hmem
    simp [isMutEvent] at hfalse
  · rw [hEM] at hmem
    rcases List.mem_append.mp hmem with h | h
    · have hfalse := hpre _ h
      simp [isMutEvent] at hfalse
    · simp at h
  · rw [hEM]
    exact List.Sublist.append (List.nil_sublist pre)
      (List.Sublist.cons _ (List.Sublist.cons _
        (List.Sublist.cons₂ _ (List.Sublist.cons₂ _ (List.nil_sublist _)))))

/-- Witness for C2 at a concrete successful run. -/
theorem C2_backup_rename_precedes_replace_witness :
    List.Sublist
      [UEvent.renameFile "/opt/app" "/opt/app.old",
       UEvent.renameFile (newBinaryPath "/opt/app") "/opt/app"]
      (executorMain
        ⟨some "http://h/a", none, none, "/opt/app", "7", "", false⟩
        ⟨fun _ => true, fun _ => true, true, [1, 2, 3], fun _ => []⟩).2 :=
  C2_backup_rename_precedes_replace
    ⟨some "http://h/a", none, none, "/opt/app", "7", "", false⟩
    ⟨fun _ => true, fun _ => true, true, [1, 2, 3], fun _ => []⟩
    (by decide)

/-- C7: the download path is the `.new` sibling, a different path from
the original binary, and every mutating event of an executor run is
either the write or chmod of that sibling path or one of the two
atomic-swap renames — the file at the original path is touched only by
the swap renames. -/
theorem C7_download_targets_sibling_path (a : UpdaterArgs) (env : ExecEnv) :
    newBinaryPath a.CURRENT_BINARY_PATH ≠ a.CURRENT_BINARY_PATH ∧
    ∀ e ∈ (executorMain a env).2, isMutEvent e = true →
      e = UEvent.writeFile (newBinaryPath a.CURRENT_BINARY_PATH) env.body ∨
      e = UEvent.chmodFile (newBinaryPath a.CURRENT_BINARY_PATH) 0o755 ∨
      e = UEvent.renameFile a.CURRENT_BINARY_PATH (a.CURRENT_BINARY_PATH ++ ".old") ∨
      e = UEvent.renameFile (newBinaryPath a.CURRENT_BINARY_PATH) a.CURRENT_BINARY_PATH := by
  refine ⟨newBinaryPath_ne _, ?_⟩
  intro e he hmut
  obtain ⟨pre, hpre, hcases⟩ := executorMain_shape a env
  rcases hcases with ⟨hEM, _⟩ | ⟨hEM, _⟩ | ⟨hEM, _⟩ | ⟨_, _, hEM⟩ | ⟨_, hEM⟩
  · rw [hEM] at he
    rw [hpre e he] at hmut
    simp at hmut
  · rw [hEM] at he
    rw [hpre e he] at hmut
    simp at hmut
  · rw [hEM] at he
    rw [hpre e he] at hmut
    simp at hmut
  · rw [hEM] at he
    rcases List.mem_append.mp he with h | h
    · rw [hpre e h] at hmut
      simp at hmut
    · simp only [List.mem_singleton] at h
      exact Or.inl h
  · rw [hEM] at he
    rcases List.mem_append.mp he with h | h
    · rw [hpre e h] at hmut
      simp at hmut
    · simp only [List.mem_cons, List.not_mem_nil, or_false] at h
      rcases h with rfl | rfl | rfl | rfl | rfl | rfl
      · exact Or.inl rfl
      · exact Or.inr (Or.inl rfl)
      · exact Or.inr (Or.inr (Or.inl rfl))
      · exact Or.inr (Or.inr (Or.inr rfl))
      · simp [isMutEvent] at hmut
      · simp [isMutEvent] at hmut

/-- Witness for C7 at a concrete path. -/
theorem C7_download_targets_sibling_path_witness :
    newBinaryPath "/opt/app" ≠ "/opt/app" :=
  (C7_download_targets_sibling_path
    ⟨some "http://h/a", none, none, "/opt/app", "7", "", false⟩
    ⟨fun _ => true, fun _ => true, true, [1, 2, 3], fun _ => []⟩).1

/-- C1(amended): when a checksum is supplied and `IGNORE_CHECKSUM` is
not set (and the run reaches the verification step), the executor
compares the lowercase hex digest of the downloaded bytes against the
expected checksum by exact string equality — not case-insensitively —
succeeding iff they are equal as strings; on any inequality it raises
the fatal checksum error and no rename is performed. -/
theorem C1_checksum_exact_comparison (a : UpdaterArgs) (env : ExecEnv)
    (hck : a.SHA256_CHECKSUM ≠ "") (hig : a.IGNORE_CHECKSUM = false)
    (hkill : env.killThrows 0 = true) (hopen : env.openOk 0 = true)
    (hhttp : env.httpOk = true) :
    ((executorMain a env).1 = .ok () ↔
      calculateSHA256 env.sha256 env.body = a.SHA256_CHECKSUM) ∧
    (calculateSHA256 env.sha256 env.body ≠ a.SHA256_CHECKSUM →
      (executorMain a env).1 =
        .error (.checksumMismatch a.SHA256_CHECKSUM (calculateSHA256 env.sha256 env.body)) ∧
      ∀ s d, UEvent.renameFile s d ∉ (executorMain a env).2) := by
  have hckb : ((a.SHA256_CHECKSUM != "") && !a.IGNORE_CHECKSUM) = true := by
    simp [bne_iff_ne, hck, hig]
  have hwait1 : (waitForTargetPidToExit 40 0 env.killThrows).1 ≠ .error .pidTimeout := by
    intro h
    have h0 := (waitPid_error_iff 40 0 env.killThrows).mp h 0 (by omega)
    simp [hkill] at h0
  have hwait2 : (waitForUnlock 40 0 env.openOk a.CURRENT_BINARY_PATH).1 ≠
      .error .lockTimeout := by
    intro h
    have h0 := (waitUnlock_error_iff 40 0 env.openOk a.CURRENT_BINARY_PATH).mp h 0 (by omega)
    simp [hopen] at h0
  obtain ⟨pre, hpre, hcases⟩ := executorMain_shape a env
  rcases hcases with ⟨hEM, hw⟩ | ⟨hEM, hw⟩ | ⟨hEM, hw⟩ | ⟨hcond, hne, hEM⟩ | ⟨hcond, hEM⟩
  · exact absurd hw hwait1
  · exact absurd hw hwait2
  · rw [hw] at hhttp
    simp at hhttp
  · constructor
    · rw [hEM]
      constructor
      · intro h
        simp at h
      · intro h
        exact absurd h hne
    · intro _
      rw [hEM]
      refine ⟨rfl, ?_⟩
      intro s d hmem
      rcases List.mem_append.mp hmem with h | h
      · have hfalse := hpre _ h
        simp [isMutEvent] at hfalse
      · simp at h
  · have hmatch : calculateSHA256 env.sha256 env.body = a.SHA256_CHECKSUM := by
      rcases hcond with h | h
      · rw [hckb] at h
        simp at h
      · exact h
    constructor
    · rw [hEM]
      simp [hmatch]
    · intro h
      exact absurd hmatch h

/-- Witness for C1's amended theorem at a concrete mismatching digest. -/
theorem C1_checksum_exact_comparison_witness :
    (executorMain ⟨some "http://h/a", none, none, "/opt/app", "7", "ff", false⟩
      ⟨fun _ => true, fun _ => true, true, [0], fun _ => [0]⟩).1 =
      .error (.checksumMismatch "ff"
        (calculateSHA256 (fun _ => [0]) [0])) :=
  ((C1_checksum_exact_comparison
    ⟨some "http://h/a", none, none, "/opt/app", "7", "ff", false⟩
    ⟨fun _ => true, fun _ => true, true, [0], fun _ => [0]⟩
    (by decide) rfl rfl rfl rfl).2 (by decide)).1

/-- Counterexample for C1: a checksum equal to the digest up to letter
case (uppercase expected, lowercase computed) is rejected with the fatal
checksum error — verification is not case-insensitive — and the run
stops after the download write, before any rename. -/
theorem C1_case_insensitive_refuted :
    (executorRun
      ["--PUBLIC_URL=http://h/a", "--CURRENT_BINARY_PATH=/opt/app", "--CURRENT_PID=7",
       "--SHA256_CHECKSUM=ABABABABABABABABABABABABABABABABABABABABABABABABABABABABABABABAB"]
      ⟨fun _ => true, fun _ => true, true, [1, 2, 3], fun _ => List.replicate 32 171⟩).1 =
      .error (.checksumMismatch
        "ABABABABABABABABABABABABABABABABABABABABABABABABABABABABABABABAB"
        "abababababababababababababababababababababababababababababababab") ∧
    ("ABABABABABABABABABABABABABABABABABABABABABABABABABABABABABABABAB" : String).data.map
        asciiLowerChar =
      ("abababababababababababababababababababababababababababababababab" : String).data ∧
    (executorRun
      ["--PUBLIC_URL=http://h/a", "--CURRENT_BINARY_PATH=/opt/app", "--CURRENT_PID=7",
       "--SHA256_CHECKSUM=ABABABABABABABABABABABABABABABABABABABABABABABABABABABABABABABAB"]
      ⟨fun _ => true, fun _ => true, true, [1, 2, 3], fun _ => List.replicate 32 171⟩).2 =
      [UEvent.killAttempt 0, UEvent.openAttempt "/opt/app" 0,
       UEvent.fetchUrl "http://h/a", UEvent.writeFile "/opt/app.new" [1, 2, 3]] :=
  ⟨rfl, rfl, rfl⟩

/-- C4 evaluated at the failing input: the executor's strict option
table rejects `--AUTO_START` outright, and an executor run invoked
without any auto-start flag still relaunches — it spawns the swapped
binary unconditionally. -/
theorem C4_executor_relaunch_unconditional :
    (∃ msg, parseUpdaterArgs
        ["--PUBLIC_URL=http://h/a", "--CURRENT_BINARY_PATH=/opt/app", "--CURRENT_PID=7",
         "--SHA256_CHECKSUM=x", "--IGNORE_CHECKSUM", "--AUTO_START"] = .error msg) ∧
    (executorRun
        ["--PUBLIC_URL=http://h/a", "--CURRENT_BINARY_PATH=/opt/app", "--CURRENT_PID=7",
         "--SHA256_CHECKSUM=x", "--IGNORE_CHECKSUM"]
        ⟨fun _ => true, fun _ => true, true, [1, 2, 3], fun _ => []⟩).1 = .ok () ∧
    UEvent.spawnNew "/opt/app" true ∈
      (executorRun
        ["--PUBLIC_URL=http://h/a", "--CURRENT_BINARY_PATH=/opt/app", "--CURRENT_PID=7",
         "--SHA256_CHECKSUM=x", "--IGNORE_CHECKSUM"]
        ⟨fun _ => true, fun _ => true, true, [1, 2, 3], fun _ => []⟩).2 :=
  ⟨⟨"Unknown option AUTO_START", rfl⟩, rfl, by decide⟩

theorem zodParse_urls (v : RawValues) (a : UpdaterArgs) (h : zodParse v = .ok a) :
    a.PUBLIC_URL = v.PUBLIC_URL ∧ a.PRIVATE_URL = v.PRIVATE_URL := by
  unfold zodParse at h
  repeat' split at h
  all_goals
    first
      | (obtain rfl := Except.ok.inj h
         exact ⟨rfl, rfl⟩)
      | exact absurd h (by simp)

/-- C8: when neither download URL is present among the parsed
invocation values, the executor run fails while validating its inputs
(with the missing-URL error, or a schema error if a required field is
also absent) and its event trace is empty — no filesystem mutation
happens. -/
theorem C8_missing_urls_no_mutation (argv : List String) (env : ExecEnv)
    (v : RawValues) (hp : parseUpdaterArgs argv = .ok v)
    (h1 : v.PUBLIC_URL = none) (h2 : v.PRIVATE_URL = none) :
    ∃ err, executorRun argv env = (.error err, []) ∧
      (err = .missingUrl ∨ ∃ msg, err = .schemaError msg) := by
  unfold executorRun
  rw [hp]
  dsimp only
  cases hz : zodParse v with
  | error msg => exact ⟨.schemaError msg, rfl, Or.inr ⟨msg, rfl⟩⟩
  | ok aa =>
    obtain ⟨hpub, hpriv⟩ := zodParse_urls v aa hz
    rw [h1] at hpub
    rw [h2] at hpriv
    refine ⟨.missingUrl, ?_, Or.inl rfl⟩
    simp [hpub, hpriv]

/-- Witness for C8: an invocation with the required fields but no URL
option is rejected with the missing-URL error and an empty trace. -/
theorem C8_missing_urls_no_mutation_witness :
    ∃ err, executorRun
        ["--CURRENT_BINARY_PATH=/opt/app", "--CURRENT_PID=7", "--SHA256_CHECKSUM=abc"]
        ⟨fun _ => true, fun _ => true, true, [], fun _ => []⟩ = (.error err, []) ∧
      (err = .missingUrl ∨ ∃ msg, err = .schemaError msg) :=
  C8_missing_urls_no_mutation _ _
    { PUBLIC_URL := none, PRIVATE_URL := none, SHA256_CHECKSUM := some "abc",
      GITHUB_TOKEN := none, CURRENT_BINARY_PATH := some "/opt/app",
      CURRENT_PID := some "7", IGNORE_CHECKSUM := none }
    rfl rfl rfl

theorem semverGt_iff (a b : SemVer) :
    semverGt a b = true ↔ semverCompare a b = .gt := by
  unfold semverGt
  cases semverCompare a b <;> simp

/-- Counterexample for C5: with two artifacts for the host target where
only the second has a matching release asset, an eligible artifact/asset
pair exists and the version is strictly newer, yet `hasUpdates` returns
false, because the lookup considers only the first target-matching
artifact. -/
theorem C5_existential_reading_refuted :
    hasUpdates ⟨"t", "d", [⟨"b", "u", "v", 1⟩]⟩
      ⟨⟨2, 0, 0, []⟩, "d", [⟨"a", .linux_x64, 1, "c"⟩, ⟨"b", .linux_x64, 1, "c"⟩]⟩
      .linux_x64 ⟨1, 0, 0, []⟩ = false ∧
    (∃ art ∈ ([⟨"a", .linux_x64, 1, "c"⟩, ⟨"b", .linux_x64, 1, "c"⟩] : List Artifact),
      art.target = .linux_x64 ∧
      ∃ ast ∈ ([⟨"b", "u", "v", 1⟩] : List Asset), ast.name = art.name) ∧
    semverGt ⟨2, 0, 0, []⟩ ⟨1, 0, 0, []⟩ = true := by
  decide

/-- C5(amended): `hasUpdates` returns true iff the first artifact whose
target equals the host target (first-match lookup) has a release asset
with the same name and the metadata version is strictly greater under
semver precedence; and whenever the current version is greater than or
equal to the metadata version, it returns false regardless of artifact
availability. -/
theorem C5_first_match_semantics (rel : HostedRelease) (meta : ReleaseMetadata)
    (arch : Target) (cur : SemVer) :
    (hasUpdates rel meta arch cur = true ↔
      ((∃ art, meta.artifacts.find? (fun x => x.target == arch) = some art ∧
          ∃ ast ∈ rel.assets, ast.name = art.name) ∧
        semverCompare meta.version cur = .gt)) ∧
    (semverCompare cur meta.version ≠ .lt → hasUpdates rel meta arch cur = false) := by
  constructor
  · cases hfind : meta.artifacts.find? (fun x => x.target == arch) with
    | none =>
      simp only [hasUpdates, hfind, Bool.and_eq_true, List.any_eq_true, semverGt_iff]
      constructor
      · rintro ⟨⟨x, _, hx⟩, _⟩
        cases hx
      · rintro ⟨⟨art, hart, _⟩, _⟩
        cases hart
    | some art =>
      simp only [hasUpdates, hfind, Bool.and_eq_true, List.any_eq_true, beq_iff_eq,
        semverGt_iff]
      constructor
      · rintro ⟨⟨x, hxmem, hx⟩, hgt⟩
        exact ⟨⟨art, rfl, ⟨x, hxmem, hx⟩⟩, hgt⟩
      · rintro ⟨⟨art2, ha2, ⟨x, hxmem, hx⟩⟩, hgt⟩
        obtain rfl := Option.some.inj ha2
        exact ⟨⟨x, hxmem, hx⟩, hgt⟩
  · intro hge
    have hnot : semverGt meta.version cur = false := by
      rw [Bool.eq_false_iff]
      intro h
      rw [semverGt_iff] at h
      rw [← semverCompare_swap cur meta.version] at h
      cases hc : semverCompare cur meta.version with
      | lt => exact hge hc
      | eq => rw [hc] at h; cases h
      | gt => rw [hc] at h; cases h
    simp only [hasUpdates, hnot, Bool.and_false]

/-- Witness for C5's amended theorem: equal versions are never updates. -/
theorem C5_first_match_semantics_witness :
    hasUpdates ⟨"t", "d", [⟨"b", "u", "v", 1⟩]⟩
      ⟨⟨1, 0, 0, []⟩, "d", [⟨"b", .linux_x64, 1, "c"⟩]⟩
      .linux_x64 ⟨1, 0, 0, []⟩ = false :=
  (C5_first_match_semantics ⟨"t", "d", [⟨"b", "u", "v", 1⟩]⟩
    ⟨⟨1, 0, 0, []⟩, "d", [⟨"b", .linux_x64, 1, "c"⟩]⟩
    .linux_x64 ⟨1, 0, 0, []⟩).2 (by decide)

/-- Counterexample for C3: a `checkForUpdates` call that returns on the
ineligible no-update path (fetch succeeded, no newer version) leaves the
`isUpdating` guard set to true, so the claim that the guard is false
after every returning invocation fails. -/
theorem C3_guard_not_cleared_on_return :
    (checkForUpdates false ⟨⟨1, 0, 0, []⟩, false, false⟩
      ⟨.ok (⟨"v1.0.0", "d", []⟩, ⟨⟨1, 0, 0, []⟩, "d", []⟩), .ok .linux_x64,
       .ok "/tmp/updater", "/opt/app", 7, none⟩ none).outcome = .ok () ∧
    (checkForUpdates false ⟨⟨1, 0, 0, []⟩, false, false⟩
      ⟨.ok (⟨"v1.0.0", "d", []⟩, ⟨⟨1, 0, 0, []⟩, "d", []⟩), .ok .linux_x64,
       .ok "/tmp/updater", "/opt/app", 7, none⟩ none).isUpdating = true :=
  ⟨rfl, rfl⟩

/-- C3(amended): the reentrancy guard is cleared (false) after every
invocation that throws, but after an invocation that returns normally —
the no-update path as well as the successful spawn path — the guard
remains set, and a call made while the guard is set returns immediately
with no effects. -/
theorem C3_guard_cleared_only_on_error (cfg : ResolverConfig) (env : ResolverEnv)
    (ov : Option Bool) :
    (∀ e, (checkForUpdates false cfg env ov).outcome = .error e →
      (checkForUpdates false cfg env ov).isUpdating = false) ∧
    ((checkForUpdates false cfg env ov).outcome = .ok () →
      (checkForUpdates false cfg env ov).isUpdating = true) ∧
    checkForUpdates true cfg env ov =
      { isUpdating := true, outcome := .ok (), events := [] } := by
  have hmain :
      ((checkForUpdates false cfg env ov).isUpdating = true ∧
        (checkForUpdates false cfg env ov).outcome = .ok ()) ∨
      ((checkForUpdates false cfg env ov).isUpdating = false ∧
        ∃ e, (checkForUpdates false cfg env ov).outcome = .error e) := by
    unfold checkForUpdates
    rw [if_neg (by decide)]
    dsimp only
    repeat' split
    all_goals
      first
        | exact Or.inl ⟨rfl, rfl⟩
        | exact Or.inr ⟨rfl, _, rfl⟩
  refine ⟨?_, ?_, rfl⟩
  · intro e he
    rcases hmain with ⟨hg, ho⟩ | ⟨hg, e2, ho⟩
    · rw [ho] at he
      cases he
    · exact hg
  · intro ho2
    rcases hmain with ⟨hg, ho⟩ | ⟨hg, e2, ho⟩
    · exact hg
    · rw [ho] at ho2
      cases ho2

/-- Witness for C3's amended theorem: a failing fetch clears the guard. -/
theorem C3_guard_cleared_only_on_error_witness :
    (checkForUpdates false ⟨⟨1, 0, 0, []⟩, false, false⟩
      ⟨.error "network down", .ok .linux_x64, .ok "/tmp/updater",
       "/opt/app", 7, none⟩ none).isUpdating = false :=
  (C3_guard_cleared_only_on_error ⟨⟨1, 0, 0, []⟩, false, false⟩
    ⟨.error "network down", .ok .linux_x64, .ok "/tmp/updater",
     "/opt/app", 7, none⟩ none).1 "network down" rfl

theorem checkForUpdates_shape (cfg : ResolverConfig) (env : ResolverEnv)
    (ov : Option Bool) :
    (∀ p args d, REvent.spawnUpdater p args d ∉ (checkForUpdates false cfg env ov).events) ∨
    (∃ up args, checkForUpdates false cfg env ov =
      { isUpdating := true, outcome := .ok (),
        events := [.fetchRelease, .downloadUpdaterBinary,
          .spawnUpdater up args true, .unrefUpdater, .awaitExited] }) := by
  unfold checkForUpdates
  rw [if_neg (by decide)]
  dsimp only
  repeat' split
  all_goals
    first
      | (right
         exact ⟨_, _, rfl⟩)
      | (left
         intro p args d hm
         exact absurd hm (by simp))

/-- Counterexample for C9: on an eligible path, `checkForUpdates` does
await the spawned executor's exit — the `awaitExited` effect appears in
its event sequence, after the spawn and the unref. -/
theorem C9_awaits_executor_exit :
    (checkForUpdates false ⟨⟨1, 0, 0, []⟩, false, false⟩
      ⟨.ok (⟨"v2.0.0", "d", [⟨"app-linux", "http://pub/app", "http://api/app", 100⟩]⟩,
           ⟨⟨2, 0, 0, []⟩, "d", [⟨"app-linux", .linux_x64, 100, "abc"⟩]⟩),
       .ok .linux_x64, .ok "/tmp/updater", "/opt/app", 7, none⟩ none).outcome = .ok () ∧
    (checkForUpdates false ⟨⟨1, 0, 0, []⟩, false, false⟩
      ⟨.ok (⟨"v2.0.0", "d", [⟨"app-linux", "http://pub/app", "http://api/app", 100⟩]⟩,
           ⟨⟨2, 0, 0, []⟩, "d", [⟨"app-linux", .linux_x64, 100, "abc"⟩]⟩),
       .ok .linux_x64, .ok "/tmp/updater", "/opt/app", 7, none⟩ none).events =
      [.fetchRelease, .downloadUpdaterBinary,
       .spawnUpdater "/tmp/updater"
         ["--CURRENT_BINARY_PATH=/opt/app", "--PUBLIC_URL=http://pub/app",
          "--PRIVATE_URL=http://api/app", "--GITHUB_TOKEN=", "--CURRENT_PID=7",
          "--SHA256_CHECKSUM=abc"] true,
       .unrefUpdater, .awaitExited] ∧
    REvent.awaitExited ∈
      (checkForUpdates false ⟨⟨1, 0, 0, []⟩, false, false⟩
        ⟨.ok (⟨"v2.0.0", "d", [⟨"app-linux", "http://pub/app", "http://api/app", 100⟩]⟩,
             ⟨⟨2, 0, 0, []⟩, "d", [⟨"app-linux", .linux_x64, 100, "abc"⟩]⟩),
         .ok .linux_x64, .ok "/tmp/updater", "/opt/app", 7, none⟩ none).events :=
  ⟨rfl, rfl, by decide⟩

/-- C9(amended): whenever `checkForUpdates` spawns the executor, the
spawn is detached, the handle is unreferenced immediately after, and the
call then awaits the spawned process's exit before completing — the
event sequence ends with spawn, unref, await-exited. -/
theorem C9_spawn_unref_then_await (cfg : ResolverConfig) (env : ResolverEnv)
    (ov : Option Bool) (up : String) (args : List String) (d : Bool)
    (hmem : REvent.spawnUpdater up args d ∈ (checkForUpdates false cfg env ov).events) :
    d = true ∧ ∃ front, (checkForUpdates false cfg env ov).events =
      front ++ [REvent.spawnUpdater up args true, REvent.unrefUpdater,
        REvent.awaitExited] := by
  rcases checkForUpdates_shape cfg env ov with h | ⟨up2, args2, heq⟩
  · exact absurd hmem (h up args d)
  · rw [heq] at hmem ⊢
    simp only [List.mem_cons, List.not_mem_nil, or_false, reduceCtorEq, false_or,
      or_false, REvent.spawnUpdater.injEq] at hmem
    obtain ⟨rfl, rfl, rfl⟩ := hmem
    exact ⟨rfl, [REvent.fetchRelease, REvent.downloadUpdaterBinary], rfl⟩

/-- Witness for C9's amended theorem at a concrete eligible input. -/
theorem C9_spawn_unref_then_await_witness :
    ∃ front, (checkForUpdates false ⟨⟨1, 0, 0, []⟩, false, false⟩
      ⟨.ok (⟨"v2.0.0", "d", [⟨"app-linux", "http://pub/app", "http://api/app", 100⟩]⟩,
           ⟨⟨2, 0, 0, []⟩, "d", [⟨"app-linux", .linux_x64, 100, "abc"⟩]⟩),
       .ok .linux_x64, .ok "/tmp/updater", "/opt/app", 7, none⟩ none).events =
      front ++ [REvent.spawnUpdater "/tmp/updater"
         ["--CURRENT_BINARY_PATH=/opt/app", "--PUBLIC_URL=http://pub/app",
          "--PRIVATE_URL=http://api/app", "--GITHUB_TOKEN=", "--CURRENT_PID=7",
          "--SHA256_CHECKSUM=abc"] true, REvent.unrefUpdater, REvent.awaitExited] :=
  (C9_spawn_unref_then_await ⟨⟨1, 0, 0, []⟩, false, false⟩
    ⟨.ok (⟨"v2.0.0", "d", [⟨"app-linux", "http://pub/app", "http://api/app", 100⟩]⟩,
         ⟨⟨2, 0, 0, []⟩, "d", [⟨"app-linux", .linux_x64, 100, "abc"⟩]⟩),
     .ok .linux_x64, .ok "/tmp/updater", "/opt/app", 7, none⟩ none
    "/tmp/updater" _ true (by decide)).2
